import Mathlib

/-!
A shallow embedding of the asynchronous research-workflow engine of the
`agents-manager` repository (files `src/tools.ts` and `src/server.ts`),
together with theorems checking the specification's claims about it.

Conventions used throughout the embedding:
* JavaScript strings are modelled as Lean `String`; `s.length` is the
  character count (the sources never hit the UTF-16 surrogate corner).
* Thrown JavaScript exceptions are modelled as `String` messages carried in
  `Except String α`; `String(error)` on such a value is the message itself.
* Every awaited external call (MCP registry snapshot, MCP tool invocation,
  the model completion, the conversation-transcript append) is an input of
  the run, supplied by an environment record; each such call either returns
  a value or throws, exactly as an awaited promise may resolve or reject.
* Interval-based polling loops advance time only in their own sleep calls,
  so a wall-clock budget of N*interval becomes N polls of an
  attempt-indexed registry snapshot.
-/

namespace AgentsManager

/-! ### Generic string helpers

Small executable counterparts of the JavaScript string operations used by
the sources (`includes`, `slice`, `trim`, `split`), defined by structural
recursion on character lists so that concrete runs reduce definitionally.
-/

/-- `listLeads pat s` is true when `pat` occurs at the very front of `s`. -/
def listLeads : List Char → List Char → Bool
  | [], _ => true
  | _ :: _, [] => false
  | p :: ps, c :: cs => p == c && listLeads ps cs

/-- `listHasSub pat s` is true when `pat` occurs contiguously anywhere in `s`. -/
def listHasSub (pat : List Char) : List Char → Bool
  | [] => listLeads pat []
  | c :: cs => listLeads pat (c :: cs) || listHasSub pat cs

/-- JavaScript `s.includes(pat)`. -/
def hasSubstr (s pat : String) : Bool :=
  listHasSub pat.data s.data

/-- JavaScript `s.slice(0, n)`. -/
def strTake (s : String) (n : Nat) : String :=
  String.mk (s.data.take n)

/-- JavaScript `s.trim()`. -/
def trimStr (s : String) : String :=
  String.mk (((s.data.dropWhile Char.isWhitespace).reverse.dropWhile Char.isWhitespace).reverse)

/-- JavaScript `s.split("\n")`: split at every newline, keeping empty pieces.
The first argument accumulates the current piece in reverse. -/
def splitNLAux (cur : List Char) : List Char → List String
  | [] => [String.mk cur.reverse]
  | c :: cs => if c == '\n' then String.mk cur.reverse :: splitNLAux [] cs
               else splitNLAux (c :: cur) cs

/-- JavaScript `s.split(/\s+/)` up to empty tokens: the maximal runs of
non-whitespace characters, in order.  (`split(/\s+/)` can additionally
produce an empty token at the ends; both sources discard short tokens right
after splitting, so the empty tokens never survive and are omitted here.) -/
def wsTokensAux (cur : List Char) : List Char → List String
  | [] => if cur.isEmpty then [] else [String.mk cur.reverse]
  | c :: cs =>
      if c.isWhitespace then
        if cur.isEmpty then wsTokensAux [] cs
        else String.mk cur.reverse :: wsTokensAux [] cs
      else wsTokensAux (c :: cur) cs

def wsTokens (cs : List Char) : List String := wsTokensAux [] cs

/-- First-seen-order deduplication: keeps each string's first occurrence that
is not already in `seen`, threading the set of seen strings. -/
def dedupFirstSeen (seen : List String) : List String → List String
  | [] => []
  | x :: xs => if seen.contains x then dedupFirstSeen seen xs
               else x :: dedupFirstSeen (seen ++ [x]) xs

/-! ### `src/tools.ts` — Keyword Extractor (`extractKeywords`) -/

/-- The fixed stop-word set of `extractKeywords` (`src/tools.ts`). -/
def stopWords : List String :=
  ["what", "how", "why", "where", "when", "who", "is", "are", "the", "a",
   "an", "for", "to", "in", "on", "at", "related", "about"]

/-- The characters removed by `replace(/[?:,.()[\]{}]/g, "")`. -/
def stripChars : List Char :=
  ['?', ':', ',', '.', '(', ')', '[', ']', '\x7b', '\x7d']

/-- `extractKeywords` (`src/tools.ts`): lowercase, strip punctuation, split
on whitespace, drop tokens of length ≤ 2 and stop-words, keep first 5. -/
def extractKeywords (question : String) : List String :=
  let cleaned := (question.data.map Char.toLower).filter (fun c => !(stripChars.contains c))
  let words := (wsTokens cleaned).filter
    (fun w => decide (2 < w.length) && !(stopWords.contains w))
  words.take 5

/-! ### `src/tools.ts` — Question Decomposer (`decomposeQuestion`) -/

inductive Depth where
  | quick
  | medium
  | thorough
deriving DecidableEq

def coreQuestions (question : String) : List String :=
  ["What files and directories are most relevant to: " ++ question ++ "?",
   "What is the current implementation or pattern related to: " ++ question ++ "?"]

def mediumQuestions (question : String) : List String :=
  coreQuestions question ++
  ["What dependencies or libraries are used for: " ++ question ++ "?",
   "Are there any tests or documentation related to: " ++ question ++ "?"]

def thoroughQuestions (question : String) : List String :=
  mediumQuestions question ++
  ["What is the historical context (commits, PRs) for: " ++ question ++ "?",
   "Are there any related issues or TODOs for: " ++ question ++ "?"]

/-- `decomposeQuestion` (`src/tools.ts`). -/
def decomposeQuestion (question : String) : Depth → List String
  | .quick => coreQuestions question
  | .medium => mediumQuestions question
  | .thorough => thoroughQuestions question

/-! ### `src/tools.ts` — Exploration data and the Synthesizer -/

/-- The per-sub-question result record produced by `exploreSubQuestion`.
`files` and `error` are the optional fields of the TypeScript record. -/
structure Exploration where
  success : Bool
  subQuestion : String
  summary : String
  files : Option (List String) := none
  error : Option String := none
deriving DecidableEq

/-- JavaScript `Set.add` on an insertion-ordered string set. -/
def addFile (acc : List String) (f : String) : List String :=
  if acc.contains f then acc else acc ++ [f]

/-- The `allFiles` set of `synthesizeResearch`: every exploration's `files`
folded into one insertion-ordered set. -/
def allFilesOf (exps : List Exploration) : List String :=
  exps.foldl (fun acc e => (e.files.getD []).foldl addFile acc) []

/-- `synthesizeResearch` (`src/tools.ts`). -/
def synthesizeResearch (question : String) (exps : List Exploration) : String :=
  let sections := exps.map (fun e => "**" ++ e.subQuestion ++ "**\n" ++ e.summary)
  let allFiles := allFilesOf exps
  let synthesis := "# Research Results: " ++ question ++ "\n\n" ++
    String.intercalate "\n\n" sections
  if allFiles.isEmpty then synthesis
  else synthesis ++ "\n\n## Relevant Files\n" ++
    String.intercalate "\n" (allFiles.map (fun f => "- " ++ f))

/-! ### `src/tools.ts` — search-result shapes and `extractFilesList` -/

/-- One item of a `search_code` response; both fields optional, and either
may be the empty string (falsy in JavaScript). -/
structure SearchItem where
  path : Option String := none
  name : Option String := none
deriving DecidableEq

/-- A `search_code` response: `items` may be absent. -/
structure SearchResults where
  items : Option (List SearchItem) := none
deriving DecidableEq

/-- JavaScript truthiness of an optional string. -/
def truthyStr : Option String → Bool
  | none => false
  | some s => s != ""

/-- `item.path || item.name`. -/
def pathOrName (it : SearchItem) : Option String :=
  if truthyStr it.path then it.path else it.name

/-- `extractFilesList` (`src/tools.ts`): first 10 truthy `path || name`
values of the response items. -/
def extractFilesList (searchResults : Option SearchResults) : List String :=
  match searchResults with
  | none => []
  | some sr =>
    match sr.items with
    | none => []
    | some items =>
      (((items.map pathOrName).filterMap id).filter (fun s => s != "")).take 10

/-! ### `src/tools.ts` — `summarizeWithContent` -/

structure FileContent where
  path : String
  content : String
deriving DecidableEq

/-- `summarizeWithContent` (`src/tools.ts`). -/
def summarizeWithContent (subQuestion : String) (filePaths : List String)
    (fileContents : List FileContent) : String :=
  if filePaths.isEmpty then
    "No relevant files found for: " ++ subQuestion
  else
    let base := "Found " ++ toString filePaths.length ++ " relevant file(s):\n"
    if fileContents.isEmpty then
      base ++ String.intercalate "\n" ((filePaths.take 10).map (fun f => "- " ++ f))
    else
      base ++ String.join (fileContents.map (fun fc =>
        let lines := (splitNLAux [] fc.content.data).filter
          (fun l => decide (0 < (trimStr l).length))
        let importLines := lines.filter
          (fun l => hasSubstr l "import" || hasSubstr l "require")
        let declLines := lines.filter
          (fun l => hasSubstr l "function " || hasSubstr l "const " ||
                    hasSubstr l "class " || hasSubstr l "interface ")
        let head := "\n**" ++ fc.path ++ "**\n"
        let deps := if importLines.isEmpty then ""
          else "- Dependencies: " ++ String.intercalate ", " (importLines.take 2) ++ "\n"
        let exportsPart := if declLines.isEmpty then ""
          else "- Key exports: " ++
            String.intercalate ", " ((declLines.take 3).map (fun f => strTake (trimStr f) 60)) ++ "\n"
        let snippet := strTake (String.intercalate "\n" (lines.take 3)) 200
        let preview := if snippet.length = 0 then "" else "- Preview: " ++ snippet ++ "...\n"
        head ++ deps ++ exportsPart ++ preview))

/-! ### `src/tools.ts` — Exploration Unit (`exploreSubQuestion`)

The MCP tool registry, the `search_code` call and the `get_file_contents`
calls are awaited external capabilities; their outcomes are inputs of the
unit, each either a value or a thrown message.
-/

/-- The external calls made by one exploration: the tool listing
(`agent.mcp.getAITools()`, observed through its key set), whether the found
search tool has an `execute` member, the search call (a function of the
query actually sent), and the per-path file read (the MCP response already
decoded to its content string; a read that throws anywhere, including while
parsing the response, surfaces as `Except.error`). -/
structure ExploreEnv where
  tools : Except String (List String)
  searchExecutable : Bool
  search : String → Except String (Option SearchResults)
  readFile : String → Except String String

/-- `toolNames.find((name) => name.includes(pat) && name.includes("tool_"))`. -/
def findToolName (names : List String) (pat : String) : Option String :=
  names.find? (fun n => hasSubstr n pat && hasSubstr n "tool_")

/-- The `try`-block body of `exploreSubQuestion` (`src/tools.ts`).  An
`Except.error` is an exception leaving the body for the surrounding catch. -/
def exploreBody (env : ExploreEnv) (repository subQuestion : String) :
    Except String Exploration := do
  let toolNames ← env.tools
  match findToolName toolNames "search_code" with
  | none =>
    return { success := false, subQuestion,
             summary := "GitHub MCP search_code tool not available",
             error := some "search_code tool not found" }
  | some _ =>
    let hasGetFile := (findToolName toolNames "get_file_contents").isSome
    if env.searchExecutable = false then
      return { success := false, subQuestion,
               summary := "GitHub MCP search_code tool not executable",
               error := some "search_code tool has no execute function" }
    else
      let keywords := extractKeywords subQuestion
      let queryWithRepo := String.intercalate " " keywords ++ " repo:" ++ repository
      let searchResults ← env.search queryWithRepo
      let filePaths := extractFilesList searchResults
      if filePaths.isEmpty then
        return { success := true, subQuestion,
                 summary := "No relevant files found in " ++ repository ++ " for: " ++ subQuestion,
                 files := some [] }
      else
        let fileContents :=
          if hasGetFile then
            (filePaths.take 3).filterMap (fun p =>
              match env.readFile p with
              | .ok c => some ⟨p, strTake c 2000⟩
              | .error _ => none)
          else []
        return { success := true, subQuestion,
                 summary := summarizeWithContent subQuestion filePaths fileContents,
                 files := some filePaths }

/-- `exploreSubQuestion` (`src/tools.ts`): the body wrapped in the unit's
catch-all, which converts an exception into a `success := false` record. -/
def exploreSubQuestion (env : ExploreEnv) (repository subQuestion : String) : Exploration :=
  match exploreBody env repository subQuestion with
  | .ok r => r
  | .error e =>
    { success := false, subQuestion,
      summary := "Failed to explore: " ++ e,
      error := some e }

/-! ### MCP registry snapshots and the readiness gates -/

/-- One entry of `getMcpServers().servers`: the provider id with its `name`
and `state` (`connecting`, `authenticating`, `discovering`, `ready`,
`failed`). -/
structure MCPServer where
  id : String
  name : String
  state : String
deriving DecidableEq

/-- The readiness poll of `researchRepository` (`src/tools.ts`): a 15000 ms
budget polled every 500 ms — 30 snapshots — succeeding as soon as any
server, regardless of name, is in state `ready`.  `i` is the attempt index,
the last argument the remaining attempts. -/
def toolGateLoop (snap : Nat → List MCPServer) (i : Nat) : Nat → Bool
  | 0 => false
  | fuel + 1 =>
    if (snap i).any (fun s => s.state == "ready") then true
    else toolGateLoop snap (i + 1) fuel

/-- `mcpReady` after the wait loop of `researchRepository`. -/
def toolGateReady (snap : Nat → List MCPServer) : Bool :=
  toolGateLoop snap 0 30

/-! ### `src/tools.ts` — `researchRepository` (the tool's execute) -/

/-- The result object returned by the tool's `execute`; absent fields of the
success and failure shapes are `none`. -/
structure ResearchResult where
  success : Bool
  error : Option String := none
  repository : Option String := none
  question : Option String := none
  synthesis : Option String := none
  explorations : Option (List Exploration) := none
  subQuestionsCount : Option Nat := none
  successfulCount : Option Nat := none
  depthMeta : Option Depth := none
deriving DecidableEq

/-- The external world of one `researchRepository` call: the registry
snapshot per poll and, for each sub-question, the capability outcomes of its
exploration. -/
structure ResearchEnv where
  snap : Nat → List MCPServer
  exploreEnvOf : String → ExploreEnv

def mcpNotAvailableMsg : String :=
  "GitHub MCP server is not available. Please ensure you're connected to GitHub in the Setup page."

def allFailedMsg : String :=
  "All exploration attempts failed. The repository may not be accessible or GitHub MCP may not be connected."

/-- `researchRepository.execute` (`src/tools.ts`): any-ready gate, then
decompose, explore every sub-question (a `Promise.all` fan-out whose `i`-th
result is the `i`-th exploration), keep the successful ones, and synthesize.
The `try` body is exception-free — every failure is an early `return` — so
the surrounding catch is unreachable and not represented. -/
def researchRepository (env : ResearchEnv) (repository question : String)
    (depth : Depth) : ResearchResult :=
  if toolGateReady env.snap then
    let subQuestions := decomposeQuestion question depth
    let explorations := subQuestions.map
      (fun sq => exploreSubQuestion (env.exploreEnvOf sq) repository sq)
    let successfulExplorations := explorations.filter (fun e => e.success)
    if successfulExplorations.isEmpty then
      { success := false, error := some allFailedMsg }
    else
      { success := true,
        repository := some repository,
        question := some question,
        synthesis := some (synthesizeResearch question successfulExplorations),
        explorations := some successfulExplorations,
        subQuestionsCount := some subQuestions.length,
        successfulCount := some successfulExplorations.length,
        depthMeta := some depth }
  else
    { success := false, error := some mcpNotAvailableMsg }

/-! ### `src/server.ts` — the Workflow Store -/

/-- One row of the `research_workflows` table. -/
structure WorkflowRow where
  id : String
  status : String
  repository : String
  question : String
  depth : String
  task_id : Option String
  results : Option String
  error : Option String
  created_at : Nat
  updated_at : Nat
deriving DecidableEq

/-- The `updates` argument of `Chat.updateWorkflow`. -/
structure WorkflowUpdates where
  status : Option String := none
  results : Option String := none
  error : Option String := none
deriving DecidableEq

/-- `Chat.updateWorkflow` (`src/server.ts`): three guarded UPDATE statements
tried in order — status with results, status with error, status alone — and
no write at all when `status` is absent. -/
def updateWorkflow (row : WorkflowRow) (u : WorkflowUpdates) (now : Nat) : WorkflowRow :=
  match u.status, u.results, u.error with
  | some s, some r, _ => { row with status := s, results := some r, updated_at := now }
  | some s, none, some e => { row with status := s, error := some e, updated_at := now }
  | some s, none, none => { row with status := s, updated_at := now }
  | none, _, _ => row

/-- The row INSERTed by `Chat.createResearchWorkflow` (`src/server.ts`). -/
def createWorkflowRow (id repository question depth : String)
    (taskId : Option String) (now : Nat) : WorkflowRow :=
  { id, status := "pending", repository, question, depth,
    task_id := taskId, results := none, error := none,
    created_at := now, updated_at := now }

/-! ### `src/server.ts` — Delivery Sink (`postResearchToLinear`) -/

/-- External calls of `postResearchToLinear`: the registry snapshot per
poll, the tool listing after the gate (may throw), whether the found
comment tool has `execute`, and the comment-creation call's outcome. -/
structure LinearEnv where
  snap : Nat → List MCPServer
  getTools : Except String (List String)
  commentExecutable : String → Bool
  postComment : Except String Unit

/-- The readiness poll of `postResearchToLinear`: 15 attempts, 1000 ms
apart, requiring the server named `Linear` to be `ready`; on the last
attempt the function returns instead of sleeping. -/
def linearGateLoop (snap : Nat → List MCPServer) (i : Nat) : Nat → Bool
  | 0 => false
  | fuel + 1 =>
    match (snap i).find? (fun s => s.name == "Linear") with
    | some s =>
      if s.state == "ready" then true
      else if fuel == 0 then false else linearGateLoop snap (i + 1) fuel
    | none => if fuel == 0 then false else linearGateLoop snap (i + 1) fuel

def linearGate (snap : Nat → List MCPServer) : Bool :=
  linearGateLoop snap 0 15

/-- The comment template of `postResearchToLinear` (the source file spells
the microscope emoji as the four characters below). -/
def linearComment (repository question results : String) : String :=
  "## ðŸ”¬ Research Results\n\n**Repository:** " ++ repository ++
  "\n**Question:** " ++ question ++ "\n\n---\n\n" ++ results ++
  "\n\n---\n*Generated automatically by AI research workflow*"

/-- The `try`-block body of `postResearchToLinear` (`src/server.ts`).
`none` is an early return (gate timeout, missing or non-executable comment
tool); `some` carries the issue id and body actually sent; `Except.error`
is an exception leaving the body for the catch. -/
def postBody (env : LinearEnv) (taskId repository question results : String) :
    Except String (Option (String × String)) := do
  if linearGate env.snap = false then
    return none
  let names ← env.getTools
  match names.find? (fun n => hasSubstr n "add_issue_comment" || hasSubstr n "create_comment") with
  | none => return none
  | some toolName =>
    if env.commentExecutable toolName = false then
      return none
    else do
      let _ ← env.postComment
      return some (taskId, linearComment repository question results)

/-- `postResearchToLinear` (`src/server.ts`): the body with its catch-all,
which logs and swallows any exception ("Don't throw - this is a
non-critical operation"). -/
def postResearchToLinear (env : LinearEnv) (taskId repository question results : String) :
    Option (String × String) :=
  match postBody env taskId repository question results with
  | .ok r => r
  | .error _ => none

/-! ### `src/server.ts` — the Workflow Engine (`executeResearch`) -/

/-- External calls of one engine run: the registry snapshot and the
`getAITools` outcome per gate attempt, the model completion (a function of
the filtered tool names; resolves to the final text or rejects), the two
possible `saveMessages` transcript appends (`none` = the append succeeds,
`some m` = it rejects with message `m`), and the `Date.now()` clock per
write.  The `ensureJsonSchema` warm-up call has no observable effect here
and is not represented. -/
structure EngineEnv where
  snap : Nat → List MCPServer
  getTools : Nat → Except String (List String)
  ai : List String → Except String String
  saveSuccess : Option String
  saveError : Option String
  time : Nat → Nat

def noServersMsg : String :=
  "No MCP servers available. Please connect GitHub MCP server first."

def ghNotConnectedMsg : String :=
  "GitHub MCP server not connected. Please connect it first."

def ghNotReadyMsg (st : String) : String :=
  "GitHub MCP server not ready after 30 attempts. Current state: " ++ st

def toolsFailedMsg (e : String) : String :=
  "Failed to get MCP tools: " ++ e

def insufficientMsg (n : Nat) : String :=
  "Research produced insufficient results (" ++ toString n ++
  " chars). The AI may have encountered an error."

/-- The engine's readiness loop (`src/server.ts`, `MAX_RETRIES = 30`,
1000 ms apart): each attempt retries — or on the last attempt throws — when
there are no servers, no server named `GitHub`, the `GitHub` server is not
`ready`, or `getAITools` fails; it breaks with the tools on the first
attempt where `GitHub` is ready and the tools are obtained.  `i` is the
attempt index, the last argument the remaining attempts; the fuel-0 value
is the unreachable fall-through of the `for` loop (`mcpTools` still `{}`). -/
def engineGateLoop (env : EngineEnv) (i : Nat) : Nat → Except String (List String)
  | 0 => .ok []
  | fuel + 1 =>
    let servers := env.snap i
    if servers.length == 0 then
      if fuel == 0 then .error noServersMsg else engineGateLoop env (i + 1) fuel
    else
      match servers.find? (fun s => s.name == "GitHub") with
      | none =>
        if fuel == 0 then .error ghNotConnectedMsg else engineGateLoop env (i + 1) fuel
      | some gh =>
        if gh.state == "ready" then
          match env.getTools i with
          | .ok tools => .ok tools
          | .error e =>
            if fuel == 0 then .error (toolsFailedMsg e) else engineGateLoop env (i + 1) fuel
        else
          if fuel == 0 then .error (ghNotReadyMsg gh.state)
          else engineGateLoop env (i + 1) fuel

def engineGate (env : EngineEnv) : Except String (List String) :=
  engineGateLoop env 0 30

/-- `essentialToolPatterns` (`src/server.ts`). -/
def essentialToolPatterns : List String :=
  ["search_code", "get_file_contents", "search_repositories", "list_commits", "get_commit"]

/-- The context-size filter applied to the gate's tools. -/
def filterTools (names : List String) : List String :=
  names.filter (fun n => essentialToolPatterns.any (fun p => hasSubstr n p))

/-- The success transcript entry's text. -/
def successText (repository question fullResponse : String) : String :=
  "## Research Results: " ++ repository ++ "\n\n**Question:** " ++ question ++
  "\n\n" ++ fullResponse

/-- The failure transcript entry's text. -/
def failText (repository question errorMessage : String) : String :=
  "## Research Failed: " ++ repository ++ "\n\n**Question:** " ++ question ++
  "\n\n**Error:** " ++ errorMessage ++
  "\n\nPlease try again or check if the GitHub MCP server is properly connected."

/-- One observable effect of a run, in program order: a workflow-row write
or a conversation-transcript append (role, text, `isError` metadata). -/
inductive REvent where
  | wrote (row : WorkflowRow)
  | appended (role : String) (text : String) (isError : Bool)
deriving DecidableEq

/-- The outcome of one `executeResearch` invocation: the final row, the
effect trace, the Linear comment actually posted (if any), and the message
of an exception that left the handler uncaught (only the catch-path
transcript append can produce one). -/
structure RunResult where
  row : WorkflowRow
  events : List REvent
  posted : Option (String × String)
  uncaught : Option String
deriving DecidableEq

/-- The catch block of `executeResearch`: persist `failed` with the error
message, then append the error transcript entry (itself an awaited call
that may reject, with nothing left to catch it). -/
def failPath (env : EngineEnv) (wf cur : WorkflowRow) (evs : List REvent)
    (msg : String) : RunResult :=
  let rowF := updateWorkflow cur { status := some "failed", error := some msg } (env.time 2)
  let evs := evs ++ [REvent.wrote rowF]
  match env.saveError with
  | some e2 => { row := rowF, events := evs, posted := none, uncaught := some e2 }
  | none =>
    { row := rowF,
      events := evs ++ [REvent.appended "assistant" (failText wf.repository wf.question msg) true],
      posted := none, uncaught := none }

/-- `executeResearch` (`src/server.ts`) on an existing workflow row `wf`:
set `in_progress`; gate on the `GitHub` MCP server; run the completion over
the filtered tools; reject responses shorter than 50 characters; persist
`completed` with the text; append the success entry; if a task id is set,
post to Linear (best-effort).  Any exception inside the `try` falls to
`failPath`. -/
def executeResearch (env : EngineEnv) (lenv : LinearEnv) (wf : WorkflowRow) : RunResult :=
  let row1 := updateWorkflow wf { status := some "in_progress" } (env.time 0)
  let evs := [REvent.wrote row1]
  match engineGate env with
  | .error e => failPath env wf row1 evs e
  | .ok tools =>
    match env.ai (filterTools tools) with
    | .error e => failPath env wf row1 evs e
    | .ok fullResponse =>
      if fullResponse.length < 50 then
        failPath env wf row1 evs (insufficientMsg fullResponse.length)
      else
        let row2 := updateWorkflow row1
          { status := some "completed", results := some fullResponse } (env.time 1)
        let evs := evs ++ [REvent.wrote row2]
        match env.saveSuccess with
        | some e => failPath env wf row2 evs e
        | none =>
          let evs := evs ++
            [REvent.appended "assistant" (successText wf.repository wf.question fullResponse) false]
          match wf.task_id with
          | some taskId =>
            { row := row2, events := evs,
              posted := postResearchToLinear lenv taskId wf.repository wf.question fullResponse,
              uncaught := none }
          | none => { row := row2, events := evs, posted := none, uncaught := none }

/-! ### Observations over run traces -/

/-- The workflow rows a run wrote, in order. -/
def writtenRows (r : RunResult) : List WorkflowRow :=
  r.events.filterMap (fun e => match e with
    | .wrote w => some w
    | .appended _ _ _ => none)

/-- The transcript entries a run appended, in order. -/
def appendedEntries (r : RunResult) : List (String × String × Bool) :=
  r.events.filterMap (fun e => match e with
    | .wrote _ => none
    | .appended role t b => some (role, t, b))

/-- Every transcript append in the trace comes strictly after some write of
a terminal (`completed` or `failed`) status; the flag carries whether such a
write has been seen. -/
def appendsAfterTerminalWrite (seen : Bool) : List REvent → Bool
  | [] => true
  | .wrote r :: rest =>
    appendsAfterTerminalWrite (seen || (r.status == "completed" || r.status == "failed")) rest
  | .appended _ _ _ :: rest => seen && appendsAfterTerminalWrite seen rest

/-- A freshly created workflow row, as the engine finds it on wake. -/
def freshRow (wf : WorkflowRow) : Prop :=
  wf.status = "pending" ∧ wf.results = none ∧ wf.error = none

/-! ### The spec's invariants and gate contracts, as stated -/

/-- The spec's record invariant: on `completed` exactly `results` is set, on
`failed` exactly `error` is set, and both are null while non-terminal. -/
def terminalExclusiveInvariant (r : WorkflowRow) : Prop :=
  (r.status = "completed" → r.results.isSome ∧ r.error = none) ∧
  (r.status = "failed" → r.error.isSome ∧ r.results = none) ∧
  ((r.status = "pending" ∨ r.status = "in_progress") → r.results = none ∧ r.error = none)

/-- The claim that every row reachable by the engine's operations (the
created row and every row a run writes) satisfies the exclusivity
invariant. -/
def terminalExclusiveClaim : Prop :=
  ∀ (env : EngineEnv) (lenv : LinearEnv) (wf : WorkflowRow), freshRow wf →
    ∀ r ∈ wf :: writtenRows (executeResearch env lenv wf), terminalExclusiveInvariant r

/-- The claim that every run appends exactly one transcript entry, strictly
after a terminal status write. -/
def singleAppendClaim : Prop :=
  ∀ (env : EngineEnv) (lenv : LinearEnv) (wf : WorkflowRow), freshRow wf →
    (appendedEntries (executeResearch env lenv wf)).length = 1 ∧
    appendsAfterTerminalWrite false (executeResearch env lenv wf).events = true

/-- What one engine-gate attempt actually requires: the first server named
`GitHub` in that snapshot is `ready` and the tool listing succeeds there. -/
def engineQualifies (env : EngineEnv) (i : Nat) : Bool :=
  match (env.snap i).find? (fun s => s.name == "GitHub") with
  | none => false
  | some gh => gh.state == "ready" && (env.getTools i).isOk

/-- The claim that the readiness gates run before research operate in
any-ready mode: one provider in state `ready`, regardless of name, within
the 30-attempt budget makes the gate succeed — stated for the tool-side
gate and for the engine-side gate, the claim's two cited call sites. -/
def anyReadyGateClaim : Prop :=
  (∀ snap : Nat → List MCPServer,
    (∃ j, j < 30 ∧ ∃ s ∈ snap j, s.state = "ready") → toolGateReady snap = true) ∧
  (∀ env : EngineEnv,
    (∃ j, j < 30 ∧ ∃ s ∈ env.snap j, s.state = "ready") → (engineGate env).isOk = true)

/-- The claim that an engine run's completed results are assembled by the
Decomposer/Exploration/Synthesizer pipeline: the persisted text is the
synthesis of some list of successful explorations for the workflow's
question. -/
def enginePipelineClaim : Prop :=
  ∀ (env : EngineEnv) (lenv : LinearEnv) (wf : WorkflowRow), freshRow wf →
    (executeResearch env lenv wf).row.status = "completed" →
    ∃ exps : List Exploration, (∀ e ∈ exps, e.success = true) ∧
      (executeResearch env lenv wf).row.results = some (synthesizeResearch wf.question exps)

/-! ### Concrete environments used as inputs of witnesses and refutations -/

/-- A registry whose only provider is a ready GitHub server. -/
def ghReadySnap : Nat → List MCPServer := fun _ => [⟨"srv1", "GitHub", "ready"⟩]

/-- A registry whose only provider is a ready server named `Linear`. -/
def linearOnlySnap : Nat → List MCPServer := fun _ => [⟨"lin1", "Linear", "ready"⟩]

/-- A model completion of more than 50 characters, not of the synthesizer's
shape. -/
def respDemo : String :=
  "The auth flow uses OAuth tokens stored in the session database layer."

/-- A Linear environment whose registry never becomes ready. -/
def lenvSkip : LinearEnv :=
  { snap := fun _ => [], getTools := .ok [], commentExecutable := fun _ => false,
    postComment := .ok () }

/-- A Linear environment that finds and successfully calls a comment tool. -/
def lenvReady : LinearEnv :=
  { snap := fun _ => [⟨"lin1", "Linear", "ready"⟩],
    getTools := .ok ["tool_abc_create_comment"],
    commentExecutable := fun _ => true,
    postComment := .ok () }

/-- An engine environment where everything succeeds. -/
def envHappy : EngineEnv :=
  { snap := ghReadySnap,
    getTools := fun _ => .ok ["tool_search_code"],
    ai := fun _ => .ok respDemo,
    saveSuccess := none,
    saveError := none,
    time := fun _ => 0 }

/-- Like `envHappy`, but the success-path transcript append rejects. -/
def envSaveThrow : EngineEnv :=
  { envHappy with saveSuccess := some "saveMessages rejected" }

/-- Like `envHappy`, but both transcript appends reject. -/
def envDoubleThrow : EngineEnv :=
  { envHappy with saveSuccess := some "saveMessages rejected",
                  saveError := some "saveMessages rejected again" }

/-- Like `envHappy`, but the only registered provider is a ready server
named `Linear` — never one named `GitHub`. -/
def envLinearOnly : EngineEnv :=
  { envHappy with snap := linearOnlySnap }

/-- A freshly created workflow row without a tracker reference. -/
def wfDemo : WorkflowRow :=
  createWorkflowRow "wf-1" "octo/demo" "How is auth handled?" "medium" none 0

/-- A freshly created workflow row carrying a tracker task reference. -/
def wfDemoTask : WorkflowRow :=
  createWorkflowRow "wf-2" "octo/demo" "How is auth handled?" "medium" (some "ABC-123") 0

/-- An exploration environment whose registry lists no tools, so the search
tool is never found. -/
def exploreEnvNoTools : ExploreEnv :=
  { tools := .ok [], searchExecutable := true,
    search := fun _ => .ok none, readFile := fun _ => .error "" }

/-- An exploration environment whose search call rejects. -/
def exploreEnvThrow : ExploreEnv :=
  { tools := .ok ["tool_search_code"], searchExecutable := true,
    search := fun _ => .error "network failure", readFile := fun _ => .error "" }

/-- A research-tool environment with a ready registry in which every
exploration fails (no search tool). -/
def researchEnvAllFail : ResearchEnv :=
  { snap := ghReadySnap, exploreEnvOf := fun _ => exploreEnvNoTools }

/-! ### Abbreviations for the rows an engine run writes -/

/-- The row after the engine's `in_progress` write. -/
def startRow (env : EngineEnv) (wf : WorkflowRow) : WorkflowRow :=
  { wf with status := "in_progress", updated_at := env.time 0 }

/-- The row after the engine's completion write. -/
def doneRow (env : EngineEnv) (wf : WorkflowRow) (resp : String) : WorkflowRow :=
  { wf with status := "completed", results := some resp, updated_at := env.time 1 }

/-- The row after the catch block's failure write over `cur`. -/
def failedRowOf (env : EngineEnv) (cur : WorkflowRow) (msg : String) : WorkflowRow :=
  { cur with status := "failed", error := some msg, updated_at := env.time 2 }

/-- The amended record invariant: a completed row has exactly `results`
set, a failed row always has `error` set (`results` may additionally
survive a post-completion failure), and non-terminal rows have both null. -/
def amendedInvariant (r : WorkflowRow) : Prop :=
  (r.status = "completed" → r.results.isSome ∧ r.error = none) ∧
  (r.status = "failed" → r.error.isSome) ∧
  ((r.status = "pending" ∨ r.status = "in_progress") → r.results = none ∧ r.error = none)

/-! ### Helper lemmas -/

theorem amendedInvariant_nonterminal (r : WorkflowRow)
    (h1 : r.status = "pending" ∨ r.status = "in_progress")
    (h2 : r.results = none) (h3 : r.error = none) : amendedInvariant r := by
  refine ⟨fun h => ?_, fun h => ?_, fun _ => ⟨h2, h3⟩⟩
  · rcases h1 with h1 | h1 <;> rw [h1] at h <;> simp at h
  · rcases h1 with h1 | h1 <;> rw [h1] at h <;> simp at h

theorem amendedInvariant_completed (r : WorkflowRow)
    (h1 : r.status = "completed") (h2 : r.results.isSome = true) (h3 : r.error = none) :
    amendedInvariant r := by
  refine ⟨fun _ => ⟨h2, h3⟩, fun h => ?_, fun h => ?_⟩
  · rw [h1] at h; simp at h
  · rcases h with h | h <;> rw [h1] at h <;> simp at h

theorem amendedInvariant_failed (r : WorkflowRow)
    (h1 : r.status = "failed") (h2 : r.error.isSome = true) : amendedInvariant r := by
  refine ⟨fun h => ?_, fun _ => h2, fun h => ?_⟩
  · rw [h1] at h; simp at h
  · rcases h with h | h <;> rw [h1] at h <;> simp at h

theorem updateWorkflow_status_only (row : WorkflowRow) (s : String) (now : Nat) :
    updateWorkflow row { status := some s } now =
      { row with status := s, updated_at := now } := rfl

theorem updateWorkflow_status_results (row : WorkflowRow) (s r : String) (now : Nat) :
    updateWorkflow row { status := some s, results := some r } now =
      { row with status := s, results := some r, updated_at := now } := rfl

theorem updateWorkflow_status_error (row : WorkflowRow) (s e : String) (now : Nat) :
    updateWorkflow row { status := some s, error := some e } now =
      { row with status := s, error := some e, updated_at := now } := rfl

theorem failPath_row (env : EngineEnv) (wf cur : WorkflowRow) (evs : List REvent) (msg : String) :
    (failPath env wf cur evs msg).row =
      { cur with status := "failed", error := some msg, updated_at := env.time 2 } := by
  unfold failPath
  cases env.saveError <;> rfl

theorem failPath_events_throw (env : EngineEnv) (wf cur : WorkflowRow) (evs : List REvent)
    (msg e2 : String) (h : env.saveError = some e2) :
    (failPath env wf cur evs msg).events =
      evs ++ [REvent.wrote
        ({ cur with status := "failed", error := some msg, updated_at := env.time 2 })] ∧
    (failPath env wf cur evs msg).uncaught = some e2 := by
  unfold failPath
  rw [h]
  exact ⟨rfl, rfl⟩

theorem failPath_events_ok (env : EngineEnv) (wf cur : WorkflowRow) (evs : List REvent)
    (msg : String) (h : env.saveError = none) :
    (failPath env wf cur evs msg).events =
      evs ++ [REvent.wrote
          ({ cur with status := "failed", error := some msg, updated_at := env.time 2 }),
        REvent.appended "assistant" (failText wf.repository wf.question msg) true] ∧
    (failPath env wf cur evs msg).uncaught = none := by
  unfold failPath
  rw [h]
  refine ⟨?_, rfl⟩
  simp
  rfl

theorem failPath_eq (env : EngineEnv) (wf cur : WorkflowRow) (evs : List REvent) (msg : String) :
    failPath env wf cur evs msg =
      { row := failedRowOf env cur msg,
        events := evs ++ [REvent.wrote (failedRowOf env cur msg)] ++
          (match env.saveError with
           | some _ => []
           | none => [REvent.appended "assistant" (failText wf.repository wf.question msg) true]),
        posted := none,
        uncaught := env.saveError } := by
  unfold failPath
  cases env.saveError <;> simp [failedRowOf, updateWorkflow]

theorem run_shape (env : EngineEnv) (lenv : LinearEnv) (wf : WorkflowRow) :
    (∃ msg, executeResearch env lenv wf =
      { row := failedRowOf env (startRow env wf) msg,
        events := [REvent.wrote (startRow env wf),
            REvent.wrote (failedRowOf env (startRow env wf) msg)] ++
          (match env.saveError with
           | some _ => []
           | none => [REvent.appended "assistant" (failText wf.repository wf.question msg) true]),
        posted := none,
        uncaught := env.saveError }) ∨
    (∃ resp msg, ¬ (resp.length < 50) ∧ executeResearch env lenv wf =
      { row := failedRowOf env (doneRow env wf resp) msg,
        events := [REvent.wrote (startRow env wf), REvent.wrote (doneRow env wf resp),
            REvent.wrote (failedRowOf env (doneRow env wf resp) msg)] ++
          (match env.saveError with
           | some _ => []
           | none => [REvent.appended "assistant" (failText wf.repository wf.question msg) true]),
        posted := none,
        uncaught := env.saveError }) ∨
    (∃ resp p, ¬ (resp.length < 50) ∧ executeResearch env lenv wf =
      { row := doneRow env wf resp,
        events := [REvent.wrote (startRow env wf), REvent.wrote (doneRow env wf resp),
          REvent.appended "assistant" (successText wf.repository wf.question resp) false],
        posted := p,
        uncaught := none }) := by
  cases hg : engineGate env with
  | error e =>
    refine Or.inl ⟨e, ?_⟩
    simp only [executeResearch, hg]
    exact failPath_eq env wf _ _ e
  | ok tools =>
    cases hai : env.ai (filterTools tools) with
    | error e =>
      refine Or.inl ⟨e, ?_⟩
      simp only [executeResearch, hg, hai]
      exact failPath_eq env wf _ _ e
    | ok resp =>
      by_cases hlen : resp.length < 50
      · refine Or.inl ⟨insufficientMsg resp.length, ?_⟩
        simp only [executeResearch, hg, hai, if_pos hlen]
        exact failPath_eq env wf _ _ _
      · cases hss : env.saveSuccess with
        | some e =>
          refine Or.inr (Or.inl ⟨resp, e, hlen, ?_⟩)
          simp only [executeResearch, hg, hai, if_neg hlen, hss]
          exact failPath_eq env wf _ _ e
        | none =>
          cases ht : wf.task_id with
          | some t =>
            refine Or.inr (Or.inr
              ⟨resp, postResearchToLinear lenv t wf.repository wf.question resp, hlen, ?_⟩)
            simp only [executeResearch, hg, hai, if_neg hlen, hss, ht]
            rfl
          | none =>
            refine Or.inr (Or.inr ⟨resp, none, hlen, ?_⟩)
            simp only [executeResearch, hg, hai, if_neg hlen, hss, ht]
            rfl

theorem foldl_addFile (l : List String) :
    ∀ acc, l.foldl addFile acc = acc ++ dedupFirstSeen acc l := by
  induction l with
  | nil => intro acc; simp [dedupFirstSeen]
  | cons x xs ih =>
    intro acc
    simp only [List.foldl_cons, dedupFirstSeen, addFile]
    cases h : acc.contains x with
    | true => simp [h, ih acc]
    | false => simp [h, ih (acc ++ [x]), List.append_assoc]

theorem allFilesOf_eq (exps : List Exploration) :
    allFilesOf exps = dedupFirstSeen [] ((exps.map (fun e => e.files.getD [])).flatten) := by
  have h : ∀ (l : List Exploration) (acc : List String),
      l.foldl (fun acc e => (e.files.getD []).foldl addFile acc) acc
        = ((l.map (fun e => e.files.getD [])).flatten).foldl addFile acc := by
    intro l
    induction l with
    | nil => intro acc; rfl
    | cons x xs ih => intro acc; simp [List.foldl_append, ih]
  rw [allFilesOf, h, foldl_addFile]
  simp

theorem dedupFirstSeen_nil_iff (l : List String) :
    dedupFirstSeen [] l = [] ↔ l = [] := by
  cases l with
  | nil => simp [dedupFirstSeen]
  | cons x xs => simp [dedupFirstSeen]

theorem synthesizeResearch_header (q : String) (exps : List Exploration) :
    ∃ rest, synthesizeResearch q exps = "# Research Results: " ++ q ++ "\n\n" ++ rest := by
  simp only [synthesizeResearch]
  split
  · exact ⟨_, rfl⟩
  · rw [String.append_assoc, String.append_assoc]
    exact ⟨_, rfl⟩

theorem synthesizeResearch_head (q : String) (exps : List Exploration) :
    (synthesizeResearch q exps).data.head? = some '#' := by
  obtain ⟨rest, h⟩ := synthesizeResearch_header q exps
  rw [h]
  rfl

theorem toolGateLoop_iff (snap : Nat → List MCPServer) :
    ∀ fuel i, toolGateLoop snap i fuel = true ↔
      ∃ j, j < fuel ∧ (snap (i + j)).any (fun s => s.state == "ready") = true := by
  intro fuel
  induction fuel with
  | zero => intro i; simp [toolGateLoop]
  | succ n ih =>
    intro i
    simp only [toolGateLoop]
    by_cases h : (snap i).any (fun s => s.state == "ready") = true
    · rw [if_pos h]
      simp only [true_iff]
      exact ⟨0, Nat.succ_pos n, by simpa using h⟩
    · rw [if_neg h, ih (i + 1)]
      constructor
      · rintro ⟨j, hj, hready⟩
        exact ⟨j + 1, by omega, by rw [show i + (j + 1) = i + 1 + j by omega]; exact hready⟩
      · rintro ⟨j, hj, hready⟩
        cases j with
        | zero => exact absurd (by simpa using hready) h
        | succ k =>
          exact ⟨k, by omega, by rw [show i + 1 + k = i + (k + 1) by omega]; exact hready⟩

theorem engineGateLoop_isOk_succ (env : EngineEnv) (i fuel : Nat) :
    (engineGateLoop env i (fuel + 1)).isOk = true ↔
      (engineQualifies env i = true ∨
        (fuel ≠ 0 ∧ (engineGateLoop env (i + 1) fuel).isOk = true)) := by
  simp only [engineGateLoop, engineQualifies]
  cases hsnap : env.snap i with
  | nil =>
    simp only [List.length_nil, List.find?_nil]
    cases fuel <;> simp [Except.isOk, Except.toBool]
  | cons a as =>
    have hlen : ((a :: as).length == 0) = false := by simp
    rw [hlen]
    simp only [Bool.false_eq_true, if_false]
    cases hf : (a :: as).find? (fun s => s.name == "GitHub") with
    | none => cases fuel <;> simp [Except.isOk, Except.toBool]
    | some gh =>
      cases hr : gh.state == "ready" with
      | false => cases fuel <;> simp [hr, Except.isOk, Except.toBool]
      | true =>
        cases ht : env.getTools i with
        | ok tools => simp [hr, ht, Except.isOk, Except.toBool]
        | error e => cases fuel <;> simp [hr, ht, Except.isOk, Except.toBool]

theorem engineGateLoop_iff (env : EngineEnv) :
    ∀ fuel i, (engineGateLoop env i (fuel + 1)).isOk = true ↔
      ∃ j, j ≤ fuel ∧ engineQualifies env (i + j) = true := by
  intro fuel
  induction fuel with
  | zero =>
    intro i
    rw [engineGateLoop_isOk_succ]
    simp
  | succ n ih =>
    intro i
    rw [engineGateLoop_isOk_succ]
    constructor
    · rintro (hq | ⟨_, hrec⟩)
      · exact ⟨0, by omega, by simpa using hq⟩
      · obtain ⟨j, hj, hq⟩ := (ih (i + 1)).mp hrec
        exact ⟨j + 1, by omega, by rw [show i + (j + 1) = i + 1 + j by omega]; exact hq⟩
    · rintro ⟨j, hj, hq⟩
      cases j with
      | zero => exact Or.inl (by simpa using hq)
      | succ k =>
        exact Or.inr ⟨Nat.succ_ne_zero n,
          (ih (i + 1)).mpr ⟨k, by omega, by rw [show i + 1 + k = i + (k + 1) by omega]; exact hq⟩⟩

/-! ### C6 — decomposition counts, nesting and question containment -/

/-- C6: for every question `q`, `decomposeQuestion` yields exactly 2, 4 and
6 sub-questions at depths quick, medium and thorough; the quick list is an
initial segment of the medium list, which is an initial segment of the
thorough list; and every sub-question contains `q` as a literal substring. -/
theorem decompose_counts_and_nesting (q : String) :
    (decomposeQuestion q Depth.quick).length = 2 ∧
    (decomposeQuestion q Depth.medium).length = 4 ∧
    (decomposeQuestion q Depth.thorough).length = 6 ∧
    (∃ t, decomposeQuestion q Depth.quick ++ t = decomposeQuestion q Depth.medium) ∧
    (∃ t, decomposeQuestion q Depth.medium ++ t = decomposeQuestion q Depth.thorough) ∧
    (∀ d : Depth, ∀ s ∈ decomposeQuestion q d, ∃ p₁ p₂, s = p₁ ++ q ++ p₂) := by
  refine ⟨rfl, rfl, rfl, ⟨_, rfl⟩, ⟨_, rfl⟩, ?_⟩
  intro d s hs
  cases d <;>
    simp only [decomposeQuestion, coreQuestions, mediumQuestions, thoroughQuestions,
      List.cons_append, List.nil_append] at hs <;>
    fin_cases hs <;>
    exact ⟨_, _, rfl⟩

/-- C6 witness: the first quick sub-question for a concrete question
contains that question. -/
theorem decompose_counts_witness :
    ∃ p₁ p₂,
      "What files and directories are most relevant to: " ++ "How is auth handled?" ++ "?" =
        p₁ ++ "How is auth handled?" ++ p₂ :=
  (decompose_counts_and_nesting "How is auth handled?").2.2.2.2.2 Depth.quick _
    (by simp [decomposeQuestion, coreQuestions])

/-! ### C9 — keyword extraction bounds -/

/-- C9: `extractKeywords` returns at most 5 tokens, never a token of length
≤ 2, never a stop-word, and its output is exactly the first 5 surviving
tokens of the lowercased, stripped, whitespace-split input in order. -/
theorem extractKeywords_bounded (s : String) :
    (extractKeywords s).length ≤ 5 ∧
    (∀ t ∈ extractKeywords s, 2 < t.length ∧ stopWords.contains t = false) ∧
    extractKeywords s =
      ((wsTokens ((s.data.map Char.toLower).filter (fun c => !(stripChars.contains c)))).filter
        (fun w => decide (2 < w.length) && !(stopWords.contains w))).take 5 := by
  refine ⟨?_, ?_, rfl⟩
  · exact List.length_take_le _ _
  · intro t ht
    have ht' := List.mem_of_mem_take ht
    have hp := (List.mem_filter.mp ht').2
    rw [Bool.and_eq_true] at hp
    exact ⟨of_decide_eq_true hp.1, by simpa using hp.2⟩

/-- C9 witness: a concrete extracted keyword is long enough and not a
stop-word. -/
theorem extractKeywords_bounded_witness :
    2 < ("authentication" : String).length ∧ stopWords.contains "authentication" = false :=
  (extractKeywords_bounded "How is authentication handled in the app?").2.1
    "authentication" (by decide)

/-! ### C10 — frame conditions of `updateWorkflow` -/

/-- C10: `updateWorkflow` writes only the fields named in the update (plus
`updated_at`): a status-only update leaves `results` and `error` unchanged,
a status+results update leaves `error` unchanged, a status+error update
leaves `results` unchanged; `id`, `repository`, `question`, `depth`,
`task_id` and `created_at` are never changed; and no update ever resets a
previously written `results` or `error` to null. -/
theorem updateWorkflow_frame (row : WorkflowRow) (u : WorkflowUpdates) (now : Nat) :
    (updateWorkflow row u now).id = row.id ∧
    (updateWorkflow row u now).repository = row.repository ∧
    (updateWorkflow row u now).question = row.question ∧
    (updateWorkflow row u now).depth = row.depth ∧
    (updateWorkflow row u now).task_id = row.task_id ∧
    (updateWorkflow row u now).created_at = row.created_at ∧
    (u.results = none → (updateWorkflow row u now).results = row.results) ∧
    (u.error = none → (updateWorkflow row u now).error = row.error) ∧
    (u.status.isSome → u.results = none → u.error.isSome →
      (updateWorkflow row u now).results = row.results) ∧
    (u.status.isSome → u.results.isSome →
      (updateWorkflow row u now).error = row.error) ∧
    ((updateWorkflow row u now).results = none → row.results = none) ∧
    ((updateWorkflow row u now).error = none → row.error = none) ∧
    (u.status = none → updateWorkflow row u now = row) := by
  obtain ⟨st, rs, er⟩ := u
  cases st <;> cases rs <;> cases er <;> simp [updateWorkflow]

/-- C10 witness: a concrete status+results update leaves `error` unchanged. -/
theorem updateWorkflow_frame_witness :
    (updateWorkflow wfDemo { status := some "completed", results := some "res" } 5).error =
      wfDemo.error :=
  (updateWorkflow_frame wfDemo { status := some "completed", results := some "res" } 5).2.2.2.2.2.2.2.2.2.1
    rfl rfl

/-! ### C7 — structure of the Synthesizer's output -/

/-- C7: the synthesizer's output starts with a header containing the
original question; it consists of the header, the per-exploration sections,
and a "Relevant Files" section that is present exactly when the union of
the explorations' file lists is non-empty and that lists the deduplicated
union in first-seen order; an empty exploration list yields the bare
header. -/
theorem synthesize_structure (q : String) (exps : List Exploration) :
    (∃ rest, synthesizeResearch q exps = "# Research Results: " ++ q ++ "\n\n" ++ rest) ∧
    (synthesizeResearch q exps =
      "# Research Results: " ++ q ++ "\n\n" ++
        String.intercalate "\n\n" (exps.map (fun e => "**" ++ e.subQuestion ++ "**\n" ++ e.summary)) ++
        (if (exps.map (fun e => e.files.getD [])).flatten = [] then ""
         else "\n\n## Relevant Files\n" ++
           String.intercalate "\n"
             ((dedupFirstSeen [] ((exps.map (fun e => e.files.getD [])).flatten)).map
               (fun f => "- " ++ f)))) ∧
    (exps = [] → synthesizeResearch q exps = "# Research Results: " ++ q ++ "\n\n") := by
  refine ⟨synthesizeResearch_header q exps, ?_, ?_⟩
  · simp only [synthesizeResearch, allFilesOf_eq]
    by_cases h : (exps.map (fun e => e.files.getD [])).flatten = []
    · rw [h]
      simp [dedupFirstSeen]
    · have h2 : dedupFirstSeen [] ((exps.map (fun e => e.files.getD [])).flatten) ≠ [] :=
        fun hc => h ((dedupFirstSeen_nil_iff _).mp hc)
      rw [if_neg h]
      simp only [List.isEmpty_eq_true, if_neg h2]
      rw [String.append_assoc]
  · intro h
    subst h
    simp only [synthesizeResearch, allFilesOf, List.map_nil, List.foldl_nil, List.isEmpty_nil,
      if_true]
    rw [show String.intercalate "\n\n" ([] : List String) = "" from rfl, String.append_empty]

/-- C7 witness: the empty exploration list yields a document containing
only the header. -/
theorem synthesize_structure_witness :
    synthesizeResearch "q" [] = "# Research Results: " ++ "q" ++ "\n\n" :=
  (synthesize_structure "q" []).2.2 rfl

/-! ### C8 — the Exploration Unit never raises -/

/-- C8: `exploreSubQuestion` is total — its type alone rules out an
exception reaching the caller — and whenever its body throws, the catch
converts the exception into a `success := false` record carrying the
exception message in `error` (and `Failed to explore: <message>` as the
summary). -/
theorem explore_catch_converts (env : ExploreEnv) (repository subQuestion e : String)
    (h : exploreBody env repository subQuestion = .error e) :
    exploreSubQuestion env repository subQuestion =
      { success := false, subQuestion, summary := "Failed to explore: " ++ e,
        files := none, error := some e } := by
  simp [exploreSubQuestion, h]

/-- C8 witness: a rejecting search capability yields the converted failure
record. -/
theorem explore_catch_converts_witness :
    exploreSubQuestion exploreEnvThrow "octo/demo" "How is auth handled?" =
      { success := false, subQuestion := "How is auth handled?",
        summary := "Failed to explore: network failure",
        files := none, error := some "network failure" } :=
  explore_catch_converts exploreEnvThrow "octo/demo" "How is auth handled?" "network failure" rfl

/-! ### C5 — tracker posting is best-effort -/

/-- C5: the tracker-posting path swallows every exception its body throws,
returns without error on readiness timeout, and has no effect on the
workflow record or the transcript: the final row, the effect trace and the
uncaught outcome of an engine run are independent of everything the Linear
environment does, so tracker delivery can never flip a completed workflow
to failed. -/
theorem linear_post_best_effort :
    (∀ (lenv : LinearEnv) (taskId repository question results e : String),
      postBody lenv taskId repository question results = .error e →
      postResearchToLinear lenv taskId repository question results = none) ∧
    (∀ (lenv : LinearEnv) (taskId repository question results : String),
      linearGate lenv.snap = false →
      postResearchToLinear lenv taskId repository question results = none) ∧
    (∀ (env : EngineEnv) (l1 l2 : LinearEnv) (wf : WorkflowRow),
      (executeResearch env l1 wf).row = (executeResearch env l2 wf).row ∧
      (executeResearch env l1 wf).events = (executeResearch env l2 wf).events ∧
      (executeResearch env l1 wf).uncaught = (executeResearch env l2 wf).uncaught) := by
  refine ⟨?_, ?_, ?_⟩
  · intro lenv taskId repository question results e h
    simp [postResearchToLinear, h]
  · intro lenv taskId repository question results h
    simp [postResearchToLinear, postBody, h, pure, Except.pure]
  · intro env l1 l2 wf
    cases hg : engineGate env with
    | error e =>
      simp only [executeResearch, hg]
      exact ⟨trivial, trivial, trivial⟩
    | ok tools =>
      cases hai : env.ai (filterTools tools) with
      | error e =>
        simp only [executeResearch, hg, hai]
        exact ⟨trivial, trivial, trivial⟩
      | ok resp =>
        by_cases hlen : resp.length < 50
        · simp only [executeResearch, hg, hai, if_pos hlen]
          exact ⟨trivial, trivial, trivial⟩
        · cases hss : env.saveSuccess with
          | some e =>
            simp only [executeResearch, hg, hai, if_neg hlen, hss]
            exact ⟨trivial, trivial, trivial⟩
          | none =>
            cases ht : wf.task_id with
            | some t =>
              simp only [executeResearch, hg, hai, if_neg hlen, hss, ht]
              exact ⟨trivial, trivial, trivial⟩
            | none =>
              simp only [executeResearch, hg, hai, if_neg hlen, hss, ht]
              exact ⟨trivial, trivial, trivial⟩

/-- C5 witness: with a registry that never reports a ready Linear server,
the tracker post returns without posting and without error. -/
theorem linear_post_best_effort_witness :
    postResearchToLinear lenvSkip "ABC-123" "octo/demo" "q" "r" = none :=
  linear_post_best_effort.2.1 lenvSkip "ABC-123" "octo/demo" "q" "r" rfl

/-! ### C3 — the two readiness gates and their modes -/

/-- C3 counterexample: the any-ready contract fails at the engine's gate.
With a registry whose only provider is a ready server named `Linear`, some
provider reports `ready` on the very first attempt, yet the engine's gate
exhausts its budget and fails. -/
theorem gates_anyready_refuted : ¬ anyReadyGateClaim := by
  intro h
  have h2 := h.2 envLinearOnly
    ⟨0, by omega, ⟨⟨"lin1", "Linear", "ready"⟩, by decide, rfl⟩⟩
  exact absurd h2 (by decide)

/-- C3 amended: the tool-side gate (`researchRepository`) is any-ready — it
succeeds exactly when some snapshot within the 30-poll budget contains a
provider in state `ready`, regardless of name — while the engine-side gate
(`executeResearch`) is named-provider mode: it succeeds exactly when, at
some attempt within its 30-poll budget, the first provider named `GitHub`
in that snapshot is `ready` and the tool listing succeeds there; a ready
provider under any other name never satisfies it. -/
theorem gates_modes (snap : Nat → List MCPServer) (env : EngineEnv) :
    (toolGateReady snap = true ↔ ∃ j, j < 30 ∧ ∃ s ∈ snap j, s.state = "ready") ∧
    ((engineGate env).isOk = true ↔ ∃ j, j < 30 ∧ engineQualifies env j = true) := by
  constructor
  · rw [toolGateReady, toolGateLoop_iff]
    constructor
    · rintro ⟨j, hj, h⟩
      obtain ⟨s, hs, hready⟩ := List.any_eq_true.mp h
      exact ⟨j, hj, s, by simpa using hs, by simpa using hready⟩
    · rintro ⟨j, hj, s, hs, hready⟩
      exact ⟨j, hj, List.any_eq_true.mpr ⟨s, by simpa using hs, by simpa using hready⟩⟩
  · have h := engineGateLoop_iff env 29 0
    simp only [Nat.zero_add] at h
    constructor
    · intro hOk
      obtain ⟨j, hj, hq⟩ := h.mp hOk
      exact ⟨j, by omega, hq⟩
    · rintro ⟨j, hj, hq⟩
      exact h.mpr ⟨j, by omega, hq⟩

/-! ### C4 — who runs the Decomposer/Exploration/Synthesizer pipeline -/

/-- C4 counterexample: a workflow run that passes the readiness gate can
complete with results that are not the Synthesizer's output for any list of
explorations — the engine's results are the raw model completion, which
need not start with the Synthesizer's fixed header. -/
theorem engine_pipeline_refuted : ¬ enginePipelineClaim := by
  intro h
  obtain ⟨exps, _, hres⟩ := h envHappy lenvSkip wfDemo ⟨rfl, rfl, rfl⟩ rfl
  have hr : (executeResearch envHappy lenvSkip wfDemo).row.results = some respDemo := rfl
  rw [hr] at hres
  have heq : respDemo = synthesizeResearch wfDemo.question exps := Option.some.inj hres
  have h1 : respDemo.data.head? = some '#' := by
    rw [heq]
    exact synthesizeResearch_head _ _
  exact absurd h1 (by decide)

/-- C4 amended: the Decomposer → concurrent-Exploration → filter →
Synthesizer pipeline is run by the tool-side `researchRepository`, not by
the engine's deferred run.  For the tool: past its gate, if every
exploration of every sub-question fails it returns `success = false` with
the "All exploration attempts failed" message and no synthesis (and it
never touches the workflow store); otherwise it returns the synthesis of
exactly the successful explorations.  For the engine: a completed workflow
's results are the text of the single AI completion over the gate's
filtered tools, of length ≥ 50. -/
theorem research_pipeline_amended :
    (∀ (env : ResearchEnv) (repository question : String) (depth : Depth),
      toolGateReady env.snap = true →
      (((decomposeQuestion question depth).map
          (fun sq => exploreSubQuestion (env.exploreEnvOf sq) repository sq)).filter
          (fun e => e.success) = [] →
        researchRepository env repository question depth =
          { success := false, error := some allFailedMsg }) ∧
      (∀ es, ((decomposeQuestion question depth).map
          (fun sq => exploreSubQuestion (env.exploreEnvOf sq) repository sq)).filter
          (fun e => e.success) = es →
        es ≠ [] →
        (researchRepository env repository question depth).success = true ∧
        (researchRepository env repository question depth).synthesis =
          some (synthesizeResearch question es))) ∧
    (∀ (env : EngineEnv) (lenv : LinearEnv) (wf : WorkflowRow),
      (executeResearch env lenv wf).row.status = "completed" →
      ∃ ts resp, engineGate env = .ok ts ∧ env.ai (filterTools ts) = .ok resp ∧
        ¬ (resp.length < 50) ∧
        (executeResearch env lenv wf).row.results = some resp) := by
  constructor
  · intro env repository question depth hGate
    constructor
    · intro hempty
      simp [researchRepository, hGate, hempty]
    · intro es hes hne
      simp [researchRepository, hGate, hes, hne]
  · intro env lenv wf
    cases hg : engineGate env with
    | error e =>
      simp only [executeResearch, hg]
      intro hstatus
      rw [failPath_row] at hstatus
      simp at hstatus
    | ok tools =>
      cases hai : env.ai (filterTools tools) with
      | error e =>
        simp only [executeResearch, hg, hai]
        intro hstatus
        rw [failPath_row] at hstatus
        simp at hstatus
      | ok resp =>
        by_cases hlen : resp.length < 50
        · simp only [executeResearch, hg, hai, if_pos hlen]
          intro hstatus
          rw [failPath_row] at hstatus
          simp at hstatus
        · cases hss : env.saveSuccess with
          | some e =>
            simp only [executeResearch, hg, hai, if_neg hlen, hss]
            intro hstatus
            rw [failPath_row] at hstatus
            simp at hstatus
          | none =>
            cases ht : wf.task_id with
            | some t =>
              simp only [executeResearch, hg, hai, if_neg hlen, hss, ht]
              intro _
              exact ⟨tools, resp, rfl, hai, hlen, rfl⟩
            | none =>
              simp only [executeResearch, hg, hai, if_neg hlen, hss, ht]
              intro _
              exact ⟨tools, resp, rfl, hai, hlen, rfl⟩

/-- C4 witness: with a ready registry but no usable search tool, every
exploration fails and the tool returns exactly the "all explorations
failed" record; and a concrete completed engine run's results are the AI
completion text. -/
theorem research_pipeline_witness :
    researchRepository researchEnvAllFail "octo/demo" "How is auth handled?" Depth.medium =
      { success := false, error := some allFailedMsg } ∧
    ∃ ts resp, engineGate envHappy = .ok ts ∧ envHappy.ai (filterTools ts) = .ok resp ∧
      ¬ (resp.length < 50) ∧
      (executeResearch envHappy lenvSkip wfDemo).row.results = some resp :=
  ⟨(research_pipeline_amended.1 researchEnvAllFail "octo/demo" "How is auth handled?"
      Depth.medium rfl).1 rfl,
   research_pipeline_amended.2 envHappy lenvSkip wfDemo rfl⟩

/-! ### C1 — terminal-state field exclusivity -/

/-- C1 counterexample: the exclusivity invariant fails on a reachable
record.  When the success-path transcript append rejects after the
completion write has been persisted, the catch block overwrites the status
with `failed` and writes `error` while `results` is already set: the final
record is `failed` with both `results` and `error` non-null. -/
theorem terminal_exclusive_refuted : ¬ terminalExclusiveClaim := by
  intro h
  have hmem : (executeResearch envSaveThrow lenvSkip wfDemo).row ∈
      wfDemo :: writtenRows (executeResearch envSaveThrow lenvSkip wfDemo) := by decide
  have hinv := h envSaveThrow lenvSkip wfDemo ⟨rfl, rfl, rfl⟩ _ hmem
  unfold terminalExclusiveInvariant at hinv
  exact absurd (hinv.2.1 rfl).2 (by decide)

/-- C1 amended: every record reachable by the engine's operations satisfies
the invariant, weakened only where the counterexample forces it — a
completed record has exactly `results` set, a non-terminal record has both
null, and a failed record always has `error` set but may additionally
retain `results` when (and only when) the failure occurred after the
completion write: any failed record with non-null `results` carries exactly
the value some earlier completed write persisted. -/
theorem terminal_fields_amended (env : EngineEnv) (lenv : LinearEnv) (wf : WorkflowRow)
    (hfresh : freshRow wf) :
    (∀ r ∈ wf :: writtenRows (executeResearch env lenv wf), amendedInvariant r) ∧
    ((executeResearch env lenv wf).row.status = "failed" →
      ∀ v, (executeResearch env lenv wf).row.results = some v →
      ∃ p ∈ writtenRows (executeResearch env lenv wf),
        p.status = "completed" ∧ p.results = some v) := by
  obtain ⟨hst, hre, her⟩ := hfresh
  rcases run_shape env lenv wf with ⟨msg, hrun⟩ | ⟨resp, msg, hlen, hrun⟩ | ⟨resp, p, hlen, hrun⟩ <;>
    rw [hrun]
  · constructor
    · intro r hr
      cases hse : env.saveError <;> simp [hse, writtenRows] at hr <;>
        rcases hr with rfl | rfl | rfl
      · exact amendedInvariant_nonterminal _ (Or.inl hst) hre her
      · exact amendedInvariant_nonterminal _ (Or.inr rfl) hre her
      · exact amendedInvariant_failed _ rfl rfl
      · exact amendedInvariant_nonterminal _ (Or.inl hst) hre her
      · exact amendedInvariant_nonterminal _ (Or.inr rfl) hre her
      · exact amendedInvariant_failed _ rfl rfl
    · intro _ v hv
      simp [failedRowOf, startRow, hre] at hv
  · constructor
    · intro r hr
      cases hse : env.saveError <;> simp [hse, writtenRows] at hr <;>
        rcases hr with rfl | rfl | rfl | rfl
      · exact amendedInvariant_nonterminal _ (Or.inl hst) hre her
      · exact amendedInvariant_nonterminal _ (Or.inr rfl) hre her
      · exact amendedInvariant_completed _ rfl rfl her
      · exact amendedInvariant_failed _ rfl rfl
      · exact amendedInvariant_nonterminal _ (Or.inl hst) hre her
      · exact amendedInvariant_nonterminal _ (Or.inr rfl) hre her
      · exact amendedInvariant_completed _ rfl rfl her
      · exact amendedInvariant_failed _ rfl rfl
    · intro _ v hv
      refine ⟨doneRow env wf resp, ?_, rfl, hv⟩
      cases hse : env.saveError <;> simp [hse, writtenRows]
  · constructor
    · intro r hr
      simp [writtenRows] at hr
      rcases hr with rfl | rfl | rfl
      · exact amendedInvariant_nonterminal _ (Or.inl hst) hre her
      · exact amendedInvariant_nonterminal _ (Or.inr rfl) hre her
      · exact amendedInvariant_completed _ rfl rfl her
    · intro hfail
      simp [doneRow] at hfail

/-- C1 witness: the final record of a concrete successful run satisfies the
amended invariant. -/
theorem terminal_fields_witness :
    amendedInvariant (executeResearch envHappy lenvSkip wfDemo).row :=
  (terminal_fields_amended envHappy lenvSkip wfDemo ⟨rfl, rfl, rfl⟩).1 _ (by decide)

/-! ### C2 — the per-run transcript append -/

/-- C2 counterexample: a run can append zero transcript entries, not
exactly one.  When both the success-path append and the catch-path append
reject, the run ends (with an uncaught rejection) having appended nothing. -/
theorem single_append_refuted : ¬ singleAppendClaim := by
  intro h
  have h1 := (h envDoubleThrow lenvSkip wfDemo ⟨rfl, rfl, rfl⟩).1
  exact absurd h1 (by decide)

/-- C2 amended: every run appends at most one transcript entry — the
success entry or the error entry, never both — every appended entry comes
strictly after a terminal status write, and the count is exactly one
whenever the run's own append call does not reject (equivalently, whenever
no rejection leaves the handler uncaught). -/
theorem transcript_single_append_amended (env : EngineEnv) (lenv : LinearEnv)
    (wf : WorkflowRow) :
    (appendedEntries (executeResearch env lenv wf)).length ≤ 1 ∧
    ((executeResearch env lenv wf).uncaught = none →
      (appendedEntries (executeResearch env lenv wf)).length = 1) ∧
    appendsAfterTerminalWrite false (executeResearch env lenv wf).events = true := by
  rcases run_shape env lenv wf with ⟨msg, hrun⟩ | ⟨resp, msg, hlen, hrun⟩ | ⟨resp, p, hlen, hrun⟩ <;>
    rw [hrun]
  · cases hse : env.saveError <;>
      simp [hse, appendedEntries, appendsAfterTerminalWrite, startRow, doneRow, failedRowOf]
  · cases hse : env.saveError <;>
      simp [hse, appendedEntries, appendsAfterTerminalWrite, startRow, doneRow, failedRowOf]
  · simp [appendedEntries, appendsAfterTerminalWrite, startRow, doneRow]

/-- C2 witness: a concrete successful run appends exactly one entry. -/
theorem transcript_single_append_witness :
    (appendedEntries (executeResearch envHappy lenvSkip wfDemo)).length = 1 :=
  (transcript_single_append_amended envHappy lenvSkip wfDemo).2.1 rfl

end AgentsManager
